import Mathlib

/-!
# ApplePMUPCCardEject

A shallow embedding of `pmueject/ApplePMUPCCardEject.cpp`, the PMU eject
controller of the IOPCCardFamily, and the properties of its four methods
(`start`, `stop`, `localSendMiscCommand`, `ejectCard`) and of its static
interrupt callback `handleInterrupt`.

Conventions of the embedding.

* Machine integers are natural numbers.  The only place where a width matters
  is the assignment of the 32-bit property word to the 8-bit field `pmuSocket`
  in `start`, written with an explicit `% 256`.
* A pointer is an `Option`: `none` is the null pointer.
* Every call that leaves the class (to the base class `IOPCCardEjectController`,
  to `waitForService`, to the PMU driver through `callPlatformFunction`) is
  appended, with the value it returned, to a trace of `Event`s, oldest first.
  What such a call returns is not decided by this file: it is read from an
  `Env`, whose answers may depend on the trace so far.
-/

namespace ApplePMUPCCardEject

/-! ## Constants -/

/-- The `IOReturn` codes are the 32-bit patterns of `IOReturn.h`. -/
abbrev IOReturn := Nat

/-- Code `kIOReturnSuccess` of `IOReturn.h`. -/
abbrev kIOReturnSuccess : IOReturn := 0

/-- Code `kIOReturnError` of `IOReturn.h` (`iokit_common_err(0x2bc)`). -/
abbrev kIOReturnError : IOReturn := 0xe00002bc

/-- Line 35: `#define kPMUpcmcia 0x04`, the PMU interrupt class of the PC-card
buttons and eject timeouts. -/
abbrev kPMUpcmcia : Nat := 0x04

/-- Line 106: `#define kPMUDoPCMCIAEject 0x4C`. -/
abbrev kPMUDoPCMCIAEject : Int := 0x4C

/-- Line 135: `#define kEjectRequestPMgrOp 1`. -/
abbrev kEjectRequestPMgrOp : Nat := 1

/-- Line 136: `#define kEjectTimeoutPMgrOp 2`. -/
abbrev kEjectTimeoutPMgrOp : Nat := 2

/-- Line 137: `(kEjectRequestPMgrOp | kEjectTimeoutPMgrOp)`. -/
abbrev kEjectInterruptTypeMask : Nat := kEjectRequestPMgrOp ||| kEjectTimeoutPMgrOp

/-! ## Objects -/

/-- A libkern object as `start` sees a property value: an `OSData` (of which
line 52 reads one 32-bit word, `*(UInt32 *)getBytesNoCopy()`, kept here as that
word) or an object of any other class. -/
inductive OSObject where
  | data (word : Nat)
  | other
  deriving DecidableEq, Repr

/-- An `IOPCIDevice`, the bridge: its address and its property table. -/
structure IOPCIDevice where
  address : Nat
  properties : List (String × OSObject)
  deriving DecidableEq, Repr

/-- The call `bridge->getProperty(key)`: null when the key is absent. -/
def IOPCIDevice.getProperty (dev : IOPCIDevice) (key : String) : Option OSObject :=
  dev.properties.lookup key

/-- The fields of an `ApplePMUPCCardEject` instance.  `thisPtr` is the address
of the instance (what `this` evaluates to); `pmuSocket` is a `UInt8`, since its
address is passed as the `UInt8 *` send buffer on line 113.  A new instance has
null pointers and a zero socket (`OSObject::operator new` clears the memory). -/
structure Controller where
  thisPtr : Nat
  bridge : Option IOPCIDevice
  pmuDriver : Option Nat
  pmuSocket : Nat
  deriving DecidableEq, Repr

/-- A freshly allocated instance at address `addr`. -/
def Controller.fresh (addr : Nat) : Controller :=
  { thisPtr := addr, bridge := none, pmuDriver := none, pmuSocket := 0 }

/-- What an `IOService *` may point to: a PCI device, an instance of this
class, or a service of any other class. -/
inductive IOService where
  | pciDevice (dev : IOPCIDevice)
  | pmuEject (ctl : Controller)
  | other (address : Nat)
  deriving DecidableEq, Repr

/-- Cast `OSDynamicCast(IOPCIDevice, provider)` of line 42. -/
def castIOPCIDevice : Option IOService → Option IOPCIDevice
  | some (IOService.pciDevice dev) => some dev
  | _ => none

/-- Cast `OSDynamicCast(ApplePMUPCCardEject, client)` of line 145. -/
def castApplePMUPCCardEject : Option IOService → Option Controller
  | some (IOService.pmuEject ctl) => some ctl
  | _ => none

/-- Cast `OSDynamicCast(OSData, obj)` of line 49, composed with the word read
of line 52. -/
def castOSData : Option OSObject → Option Nat
  | some (OSObject.data word) => some word
  | _ => none

/-! ## Calls that leave the class -/

/-- Lines 87-93: `SendMiscCommandParameterBlock`.  A buffer pointer is kept as
the bytes it points to. -/
structure SendMiscCommandParameterBlock where
  command : Int
  sLength : Nat
  sBuffer : Option (List Nat)
  rLength : Option Nat
  rBuffer : Option (List Nat)
  deriving DecidableEq, Repr

/-- The functions whose address the class hands out. -/
inductive Callback where
  | handleInterrupt
  | foreign (address : Nat)
  deriving DecidableEq, Repr

/-- A `void *` argument of `callPlatformFunction`. -/
inductive Param where
  | null
  | value (n : Nat)
  | function (f : Callback)
  | object (address : Nat)
  | block (prm : SendMiscCommandParameterBlock)
  deriving DecidableEq, Repr

/-- One call out of the class, with its arguments and the value it returned. -/
inductive Event where
  | superStart (result : Bool)
  | superStop
  | superEjectCard (result : IOReturn)
  | waitForService (name : String) (result : Option Nat)
  | callPlatformFunction (target : Nat) (functionName : String) (waitForFunction : Bool)
      (param1 param2 param3 param4 : Param) (result : IOReturn)
  deriving DecidableEq, Repr

/-- The collaborators: what each outgoing call answers, given the trace of the
calls made before it. -/
structure Env where
  superStart : List Event → Option IOService → Bool
  superEjectCard : List Event → IOReturn
  waitForService : List Event → String → Option Nat
  callPlatformFunction :
    List Event → Nat → String → Bool → Param → Param → Param → Param → IOReturn

/-- Make the call `target->callPlatformFunction(name, wait, p1, p2, p3, p4)`:
ask the collaborator, record the call, give back its answer. -/
def callPlatformFunction (env : Env) (target : Nat) (name : String) (wait : Bool)
    (p1 p2 p3 p4 : Param) (tr : List Event) : IOReturn × List Event :=
  let rc := env.callPlatformFunction tr target name wait p1 p2 p3 p4
  (rc, tr ++ [Event.callPlatformFunction target name wait p1 p2 p3 p4 rc])

/-! ## The methods -/

/-- Lines 37-68: `ApplePMUPCCardEject::start(provider)`.  The result is the
boolean, the instance after the call and the trace after the call. -/
def start (env : Env) (self : Controller) (provider : Option IOService)
    (tr : List Event) : Bool × Controller × List Event :=
  -- if (!super::start(provider)) return false;
  let ok := env.superStart tr provider
  let tr1 := tr ++ [Event.superStart ok]
  if ok = false then (false, self, tr1) else
  -- bridge = OSDynamicCast(IOPCIDevice, provider); if (!bridge) return false;
  let self1 := { self with bridge := castIOPCIDevice provider }
  match self1.bridge with
  | none => (false, self1, tr1)
  | some dev =>
    -- socketData = OSDynamicCast(OSData, bridge->getProperty(...)); if (!socketData) return false;
    match castOSData (dev.getProperty "AAPL,pmu-socket-number") with
    | none => (false, self1, tr1)
    | some word =>
      -- pmuSocket = *(UInt32 *)socketData->getBytesNoCopy(); if (!pmuSocket) return false;
      let self2 := { self1 with pmuSocket := word % 256 }
      if self2.pmuSocket = 0 then (false, self2, tr1) else
      -- pmuDriver = waitForService(serviceMatching("ApplePMU")); if (!pmuDriver) return false;
      let found := env.waitForService tr1 "ApplePMU"
      let tr2 := tr1 ++ [Event.waitForService "ApplePMU" found]
      let self3 := { self2 with pmuDriver := found }
      match self3.pmuDriver with
      | none => (false, self3, tr2)
      | some pmu =>
        -- if (pmuDriver->callPlatformFunction("registerForPMUInterrupts", true, ...) != kIOReturnSuccess)
        let r := callPlatformFunction env pmu "registerForPMUInterrupts" true
          (Param.value kPMUpcmcia) (Param.function Callback.handleInterrupt)
          (Param.object self3.thisPtr) Param.null tr2
        if r.1 ≠ kIOReturnSuccess then (false, self3, r.2) else
        (true, self3, r.2)

/-- Lines 70-80: `ApplePMUPCCardEject::stop(provider)`.  No field is assigned;
the result is the trace after the call.  The argument `provider` is only handed
on to the base class and is left out. -/
def stop (env : Env) (self : Controller) (tr : List Event) : List Event :=
  -- if (pmuDriver) { pmuDriver->callPlatformFunction("deRegisterClient", ...); }
  let tr1 :=
    match self.pmuDriver with
    | some pmu =>
      (callPlatformFunction env pmu "deRegisterClient" true
        (Param.object self.thisPtr) (Param.value kPMUpcmcia) Param.null Param.null tr).2
    | none => tr
  -- super::stop(provider);
  tr1 ++ [Event.superStop]

/-- Lines 96-104: `ApplePMUPCCardEject::localSendMiscCommand`. -/
def localSendMiscCommand (env : Env) (self : Controller) (command : Int) (sLength : Nat)
    (sBuffer : Option (List Nat)) (tr : List Event) : IOReturn × List Event :=
  match self.pmuDriver with
  -- if (!pmuDriver) return kIOReturnError;
  | none => (kIOReturnError, tr)
  | some pmu =>
    -- SendMiscCommandParameterBlock prmBlock = {command, sLength, sBuffer, 0, 0};
    let prmBlock : SendMiscCommandParameterBlock :=
      { command := command, sLength := sLength, sBuffer := sBuffer,
        rLength := none, rBuffer := none }
    callPlatformFunction env pmu "sendMiscCommand" true
      (Param.block prmBlock) Param.null Param.null Param.null tr

/-- Lines 108-117: `ApplePMUPCCardEject::ejectCard`. -/
def ejectCard (env : Env) (self : Controller) (tr : List Event) : IOReturn × List Event :=
  -- IOReturn rc = localSendMiscCommand(kPMUDoPCMCIAEject, 1, &pmuSocket);
  let r := localSendMiscCommand env self kPMUDoPCMCIAEject 1 (some [self.pmuSocket]) tr
  -- if (rc != kIOReturnSuccess) return rc;
  if r.1 ≠ kIOReturnSuccess then r else
  -- return super::ejectCard();
  let rc := env.superEjectCard r.2
  (rc, r.2 ++ [Event.superEjectCard rc])

/-- The body of the inherited method `requestCardEjection()`, which this file
of the class does not define: it gets the instance and the trace, and gives
back its result, the instance and the trace. -/
abbrev RequestCardEjection := Controller → List Event → IOReturn × Controller × List Event

/-- What a run of `handleInterrupt` leaves: the object `client` points to, the
trace, the offsets of `buffer` it has read, in the order of the reads, and the
number of times it has called `requestCardEjection`. -/
structure Dispatch where
  client : Option IOService
  trace : List Event
  loads : List Nat
  requests : Nat
  deriving DecidableEq, Repr

/-- The run that returns at once: nothing is read, called or changed. -/
def Dispatch.discard (client : Option IOService) (tr : List Event) : Dispatch :=
  { client := client, trace := tr, loads := [], requests := 0 }

/-- Lines 139-173: the static callback `ApplePMUPCCardEject::handleInterrupt`.
`buffer` is null or gives the byte at every offset from the pointer. -/
def handleInterrupt (requestCardEjection : RequestCardEjection)
    (client : Option IOService) (interruptMask : Nat) (length : Nat)
    (buffer : Option (Nat → Nat)) (tr : List Event) : Dispatch :=
  -- if (interruptMask != kPMUpcmcia) return;
  if interruptMask ≠ kPMUpcmcia then Dispatch.discard client tr else
  -- myThis = OSDynamicCast(ApplePMUPCCardEject, client); if (!myThis) return;
  match castApplePMUPCCardEject client with
  | none => Dispatch.discard client tr
  | some myThis =>
    -- if (!buffer || (length < 2)) return;
    match buffer with
    | none => Dispatch.discard client tr
    | some buf =>
      if length < 2 then Dispatch.discard client tr else
      -- if (buffer[1] != myThis->pmuSocket) return;
      if buf 1 ≠ myThis.pmuSocket then
        { client := client, trace := tr, loads := [1], requests := 0 }
      else
      -- switch (buffer[0] & kEjectInterruptTypeMask)
      let kind := buf 0 &&& kEjectInterruptTypeMask
      if kind = kEjectRequestPMgrOp then
        -- case kEjectRequestPMgrOp: (void)myThis->requestCardEjection();
        let r := requestCardEjection myThis tr
        { client := some (IOService.pmuEject r.2.1), trace := r.2.2, loads := [1, 0],
          requests := 1 }
      else if kind = kEjectTimeoutPMgrOp then
        -- case kEjectTimeoutPMgrOp:
        { client := client, trace := tr, loads := [1, 0], requests := 0 }
      else
        -- default:
        { client := client, trace := tr, loads := [1, 0], requests := 0 }

/-- Modelled from the spec: the method `requestCardEjection()`, which
`ApplePMUPCCardEject.cpp` calls and does not define; it is inherited from the
base class `IOPCCardEjectController`.
Section 4.1 of the specification: "Issues the eject command (4.3) for this
socket's identifier via CommandChannel"; it does no completion tracking of its
own.  The command channel is `localSendMiscCommand`, the eject command is the
one `ejectCard` sends. -/
def requestCardEjection (env : Env) : RequestCardEjection := fun self tr =>
  let r := localSendMiscCommand env self kPMUDoPCMCIAEject 1 (some [self.pmuSocket]) tr
  (r.1, self, r.2)

/-! ## Vocabulary of the properties -/

/-- The events of a trace that are calls of the platform function `name`. -/
def callsTo (name : String) (tr : List Event) : List Event :=
  tr.filter fun e =>
    match e with
    | Event.callPlatformFunction _ n _ _ _ _ _ _ => n == name
    | _ => false

/-- The number of calls of the base class's `ejectCard` in a trace. -/
def superEjectCardCalls (tr : List Event) : Nat :=
  (tr.filter fun e =>
    match e with
    | Event.superEjectCard _ => true
    | _ => false).length

/-- The eject command for socket `s`, sent to the service `pmu` and answered
`rc`: opcode 0x4C, one byte to send, the byte `s`, no response expected. -/
def ejectCommand (pmu s : Nat) (rc : IOReturn) : Event :=
  Event.callPlatformFunction pmu "sendMiscCommand" true
    (Param.block
      { command := 0x4C, sLength := 1, sBuffer := some [s], rLength := none, rBuffer := none })
    Param.null Param.null Param.null rc

/-- A registration with the service `pmu` for the interrupt class 0x04, with
`handleInterrupt` as callback and the instance at `ctx` as context, answered
`rc`. -/
def registration (pmu ctx : Nat) (rc : IOReturn) : Event :=
  Event.callPlatformFunction pmu "registerForPMUInterrupts" true
    (Param.value 0x04) (Param.function Callback.handleInterrupt) (Param.object ctx)
    Param.null rc

/-- A deregistration of the instance at `ctx` from the interrupt class 0x04 of
the service `pmu`, answered `rc`. -/
def deregistration (pmu ctx : Nat) (rc : IOReturn) : Event :=
  Event.callPlatformFunction pmu "deRegisterClient" true
    (Param.object ctx) (Param.value 0x04) Param.null Param.null rc

/-- The two values of the Registration State of the specification. -/
inductive RegistrationState where
  | Unregistered
  | Registered
  deriving DecidableEq, Repr

/-- How one event moves the Registration State of the instance at `ctx`: an
accepted registration of `ctx` for the class 0x04 makes it `Registered`, a
deregistration of `ctx` makes it `Unregistered`, any other event leaves it. -/
def registrationStep (ctx : Nat) (st : RegistrationState) : Event → RegistrationState
  | Event.callPlatformFunction _ name _ p1 _ p3 _ rc =>
    if name = "registerForPMUInterrupts" ∧ p1 = Param.value 0x04 ∧ p3 = Param.object ctx
        ∧ rc = kIOReturnSuccess then
      RegistrationState.Registered
    else if name = "deRegisterClient" ∧ p1 = Param.object ctx then
      RegistrationState.Unregistered
    else st
  | _ => st

/-- The Registration State of the specification (its section 3), which the
class keeps in no field: it is read off the trace, starting `Unregistered`. -/
def registrationState (ctx : Nat) (tr : List Event) : RegistrationState :=
  tr.foldl (registrationStep ctx) RegistrationState.Unregistered

/-- The conditions under which dispatch is said to request an ejection, in the
words of the characterisation: class 0x04, a context that is a socket
controller, a buffer that is not null, a length of at least 2, a second byte
equal to the controller's socket, and a first byte that is 0x01 under the mask
0x03.  The result is the controller the request goes to. -/
def ejectionTarget (client : Option IOService) (interruptMask length : Nat)
    (buffer : Option (Nat → Nat)) : Option Controller :=
  match client, buffer with
  | some (IOService.pmuEject ctl), some buf =>
    if interruptMask = 0x04 ∧ 2 ≤ length ∧ buf 1 = ctl.pmuSocket ∧ buf 0 &&& 0x03 = 0x01 then
      some ctl
    else none
  | _, _ => none

/-! ## Sample collaborators and objects -/

/-- A platform where every collaborator accepts: the base class starts and
ejects, the service is found at address 7 and answers success to every call. -/
def envAccept : Env :=
  { superStart := fun _ _ => true
    superEjectCard := fun _ => kIOReturnSuccess
    waitForService := fun _ _ => some 7
    callPlatformFunction := fun _ _ _ _ _ _ _ _ => kIOReturnSuccess }

/-- As `envAccept`, but the service refuses `registerForPMUInterrupts`. -/
def envRejectRegistration : Env :=
  { envAccept with
    callPlatformFunction := fun _ _ name _ _ _ _ _ =>
      if name = "registerForPMUInterrupts" then kIOReturnError else kIOReturnSuccess }

/-- As `envAccept`, but the service refuses `sendMiscCommand`. -/
def envRejectCommand : Env :=
  { envAccept with
    callPlatformFunction := fun _ _ name _ _ _ _ _ =>
      if name = "sendMiscCommand" then kIOReturnError else kIOReturnSuccess }

/-- As `envAccept`, but the service never shows up. -/
def envNoService : Env :=
  { envAccept with waitForService := fun _ _ => none }

/-- A bridge at address 100 whose device-tree entry gives PMU socket 3. -/
def bridge3 : IOPCIDevice :=
  { address := 100, properties := [("AAPL,pmu-socket-number", OSObject.data 3)] }

/-- A controller for socket 3 at address 9, holding the service at address 7. -/
def ctl3 : Controller :=
  { thisPtr := 9, bridge := some bridge3, pmuDriver := some 7, pmuSocket := 3 }

/-- The outcome of `start` on a new instance at address 9, under `bridge3`,
when every collaborator accepts. -/
def startedAccepted : Bool × Controller × List Event :=
  start envAccept (Controller.fresh 9) (some (IOService.pciDevice bridge3)) []

/-- The outcome of `start` on a new instance at address 9, under `bridge3`,
when the service refuses the registration. -/
def startedRejected : Bool × Controller × List Event :=
  start envRejectRegistration (Controller.fresh 9) (some (IOService.pciDevice bridge3)) []

/-- A body for `requestCardEjection` that leaves a mark in the trace. -/
def markRequest : RequestCardEjection := fun c t => (0, c, t ++ [Event.superStop])

/-- A two-byte interrupt record: the flags byte, then the socket byte. -/
def record (flags socket : Nat) : Nat → Nat := fun i => if i = 0 then flags else socket

/-! ## Lemmas -/

theorem and_three_eq_mod (b : Nat) : b &&& 3 = b % 4 :=
  Nat.and_pow_two_sub_one_eq_mod b 2

theorem kEjectInterruptTypeMask_eq : kEjectInterruptTypeMask = 3 := by decide

/-- The run of `handleInterrupt` once the class, the context, the buffer and
the length have passed: only `buf 1` and `buf 0 % 4` are looked at. -/
theorem handleInterrupt_passed (rce : RequestCardEjection) (ctl : Controller) (length : Nat)
    (buf : Nat → Nat) (tr : List Event) (hlen : 2 ≤ length) :
    handleInterrupt rce (some (IOService.pmuEject ctl)) kPMUpcmcia length (some buf) tr
      = if buf 1 ≠ ctl.pmuSocket then
          { client := some (IOService.pmuEject ctl), trace := tr, loads := [1], requests := 0 }
        else if buf 0 % 4 = 1 then
          { client := some (IOService.pmuEject (rce ctl tr).2.1), trace := (rce ctl tr).2.2,
            loads := [1, 0], requests := 1 }
        else
          { client := some (IOService.pmuEject ctl), trace := tr, loads := [1, 0],
            requests := 0 } := by
  have hl : ¬ length < 2 := by omega
  unfold handleInterrupt
  simp only [kEjectInterruptTypeMask_eq, and_three_eq_mod, castApplePMUPCCardEject]
  by_cases hs : buf 1 = ctl.pmuSocket
  · by_cases hb : buf 0 % 4 = 1
    · simp [hl, hs, hb]
    · simp [hl, hs, hb]
  · simp [hl, hs]

/-- A run of `handleInterrupt` that stops at one of the first three tests. -/
theorem handleInterrupt_rejected (rce : RequestCardEjection) (client : Option IOService)
    (interruptMask length : Nat) (buffer : Option (Nat → Nat)) (tr : List Event)
    (h : interruptMask ≠ kPMUpcmcia ∨ castApplePMUPCCardEject client = none ∨ buffer = none
      ∨ length < 2) :
    handleInterrupt rce client interruptMask length buffer tr = Dispatch.discard client tr := by
  unfold handleInterrupt
  by_cases hm : interruptMask = kPMUpcmcia
  · cases hc : castApplePMUPCCardEject client with
    | none => simp [hm]
    | some myThis =>
      cases buffer with
      | none => simp [hm]
      | some buf =>
        have hl : length < 2 := by simpa [hm, hc] using h
        simp [hm, hl]
  · simp [hm]

/-- The seven ways through `start`, each with the condition that selects it
and the complete result: the six early returns, in the order of the source,
and the successful end. -/
theorem start_cases (env : Env) (self : Controller) (provider : Option IOService)
    (tr : List Event) :
    (env.superStart tr provider = false ∧
      start env self provider tr = (false, self, tr ++ [Event.superStart false])) ∨
    (env.superStart tr provider = true ∧ castIOPCIDevice provider = none ∧
      start env self provider tr
        = (false, { self with bridge := none }, tr ++ [Event.superStart true])) ∨
    (∃ dev, env.superStart tr provider = true ∧ provider = some (IOService.pciDevice dev) ∧
      castOSData (dev.getProperty "AAPL,pmu-socket-number") = none ∧
      start env self provider tr
        = (false, { self with bridge := some dev }, tr ++ [Event.superStart true])) ∨
    (∃ dev word, env.superStart tr provider = true ∧
      provider = some (IOService.pciDevice dev) ∧
      castOSData (dev.getProperty "AAPL,pmu-socket-number") = some word ∧ word % 256 = 0 ∧
      start env self provider tr
        = (false, { self with bridge := some dev, pmuSocket := 0 },
           tr ++ [Event.superStart true])) ∨
    (∃ dev word, env.superStart tr provider = true ∧
      provider = some (IOService.pciDevice dev) ∧
      castOSData (dev.getProperty "AAPL,pmu-socket-number") = some word ∧ word % 256 ≠ 0 ∧
      env.waitForService (tr ++ [Event.superStart true]) "ApplePMU" = none ∧
      start env self provider tr
        = (false, { self with bridge := some dev, pmuSocket := word % 256, pmuDriver := none },
           tr ++ [Event.superStart true, Event.waitForService "ApplePMU" none])) ∨
    (∃ dev word pmu rc, env.superStart tr provider = true ∧
      provider = some (IOService.pciDevice dev) ∧
      castOSData (dev.getProperty "AAPL,pmu-socket-number") = some word ∧ word % 256 ≠ 0 ∧
      env.waitForService (tr ++ [Event.superStart true]) "ApplePMU" = some pmu ∧
      env.callPlatformFunction
        (tr ++ [Event.superStart true, Event.waitForService "ApplePMU" (some pmu)])
        pmu "registerForPMUInterrupts" true (Param.value 0x04)
        (Param.function Callback.handleInterrupt) (Param.object self.thisPtr) Param.null = rc ∧
      rc ≠ kIOReturnSuccess ∧
      start env self provider tr
        = (false,
           { self with bridge := some dev, pmuSocket := word % 256, pmuDriver := some pmu },
           tr ++ [Event.superStart true, Event.waitForService "ApplePMU" (some pmu),
             registration pmu self.thisPtr rc])) ∨
    (∃ dev word pmu, env.superStart tr provider = true ∧
      provider = some (IOService.pciDevice dev) ∧
      castOSData (dev.getProperty "AAPL,pmu-socket-number") = some word ∧ word % 256 ≠ 0 ∧
      env.waitForService (tr ++ [Event.superStart true]) "ApplePMU" = some pmu ∧
      env.callPlatformFunction
        (tr ++ [Event.superStart true, Event.waitForService "ApplePMU" (some pmu)])
        pmu "registerForPMUInterrupts" true (Param.value 0x04)
        (Param.function Callback.handleInterrupt) (Param.object self.thisPtr) Param.null
        = kIOReturnSuccess ∧
      start env self provider tr
        = (true,
           { self with bridge := some dev, pmuSocket := word % 256, pmuDriver := some pmu },
           tr ++ [Event.superStart true, Event.waitForService "ApplePMU" (some pmu),
             registration pmu self.thisPtr kIOReturnSuccess])) := by
  cases hok : env.superStart tr provider with
  | false => left; exact ⟨rfl, by simp [start, hok]⟩
  | true =>
    right
    cases hcast : castIOPCIDevice provider with
    | none => left; exact ⟨rfl, rfl, by simp [start, hok, hcast]⟩
    | some dev =>
      right
      have hprov : provider = some (IOService.pciDevice dev) := by
        unfold castIOPCIDevice at hcast
        split at hcast
        · cases hcast; rfl
        · cases hcast
      cases hdata : castOSData (dev.getProperty "AAPL,pmu-socket-number") with
      | none => left; exact ⟨dev, rfl, hprov, hdata, by simp [start, hok, hcast, hdata]⟩
      | some word =>
        right
        by_cases hz : word % 256 = 0
        · left
          exact ⟨dev, word, rfl, hprov, hdata, hz, by simp [start, hok, hcast, hdata, hz]⟩
        · right
          cases hfound : env.waitForService (tr ++ [Event.superStart true]) "ApplePMU" with
          | none =>
            left
            exact ⟨dev, word, rfl, hprov, hdata, hz,
              by simp [start, hok, hcast, hdata, hz, hfound]⟩
          | some pmu =>
            right
            by_cases hrc : env.callPlatformFunction
                (tr ++ [Event.superStart true, Event.waitForService "ApplePMU" (some pmu)])
                pmu "registerForPMUInterrupts" true (Param.value 0x04)
                (Param.function Callback.handleInterrupt) (Param.object self.thisPtr)
                Param.null = kIOReturnSuccess
            · right
              refine ⟨dev, word, pmu, rfl, hprov, hdata, hz, rfl, hrc, ?_⟩
              simp only [kIOReturnSuccess] at hrc
              simp [start, hok, hcast, hdata, hz, hfound, callPlatformFunction, registration,
                hrc]
            · left
              refine ⟨dev, word, pmu, _, rfl, hprov, hdata, hz, rfl, rfl, hrc, ?_⟩
              simp only [kIOReturnSuccess] at hrc
              simp [start, hok, hcast, hdata, hz, hfound, callPlatformFunction, registration,
                hrc]

/-- A `start` that returns true leaves a service handle, a socket that is not
zero, and three events behind: the base class's start, the wait for the service
and the accepted registration. -/
theorem start_true (env : Env) (self : Controller) (provider : Option IOService)
    (tr : List Event) (h : (start env self provider tr).1 = true) :
    ∃ pmu, (start env self provider tr).2.1.pmuDriver = some pmu ∧
      (start env self provider tr).2.1.pmuSocket ≠ 0 ∧
      (start env self provider tr).2.1.thisPtr = self.thisPtr ∧
      (start env self provider tr).2.2
        = tr ++ [Event.superStart true, Event.waitForService "ApplePMU" (some pmu),
            registration pmu self.thisPtr kIOReturnSuccess] := by
  rcases start_cases env self provider tr with
    ⟨-, hs⟩ | ⟨-, -, hs⟩ | ⟨_, -, -, -, hs⟩ | ⟨_, _, -, -, -, -, hs⟩ |
    ⟨_, _, -, -, -, -, -, hs⟩ | ⟨_, _, _, _, -, -, -, -, -, -, -, hs⟩ |
    ⟨dev, word, pmu, -, -, -, hz, -, -, hs⟩
  all_goals rw [hs] at h ⊢
  all_goals first
    | exact absurd h Bool.false_ne_true
    | exact ⟨_, rfl, by assumption, rfl, rfl⟩

/-- What `localSendMiscCommand` does with a service handle: one call of
`sendMiscCommand`, whose answer it returns. -/
theorem localSendMiscCommand_eject (env : Env) (self : Controller) (tr : List Event)
    (pmu : Nat) (hdrv : self.pmuDriver = some pmu) :
    ∃ rc, localSendMiscCommand env self 0x4C 1 (some [self.pmuSocket]) tr
      = (rc, tr ++ [ejectCommand pmu self.pmuSocket rc]) := by
  unfold localSendMiscCommand
  rw [hdrv]
  exact ⟨_, rfl⟩

theorem registrationState_append (ctx : Nat) (tr suffix : List Event) :
    registrationState ctx (tr ++ suffix)
      = suffix.foldl (registrationStep ctx) (registrationState ctx tr) := by
  simp [registrationState, List.foldl_append]

theorem callsTo_append (name : String) (tr suffix : List Event) :
    callsTo name (tr ++ suffix) = callsTo name tr ++ callsTo name suffix := by
  simp [callsTo, List.filter_append]

theorem start_true_iff (env : Env) (self : Controller) (provider : Option IOService)
    (tr : List Event) :
    (start env self provider tr).1 = true ↔
      ∃ dev word pmu, env.superStart tr provider = true ∧
        provider = some (IOService.pciDevice dev) ∧
        dev.getProperty "AAPL,pmu-socket-number" = some (OSObject.data word) ∧
        word % 256 ≠ 0 ∧
        env.waitForService (tr ++ [Event.superStart true]) "ApplePMU" = some pmu ∧
        env.callPlatformFunction
          (tr ++ [Event.superStart true, Event.waitForService "ApplePMU" (some pmu)])
          pmu "registerForPMUInterrupts" true (Param.value 0x04)
          (Param.function Callback.handleInterrupt) (Param.object self.thisPtr) Param.null
          = kIOReturnSuccess := by
  have hdata : ∀ (o : Option OSObject) (w : Nat),
      castOSData o = some w ↔ o = some (OSObject.data w) := by
    intro o w
    unfold castOSData
    split <;> simp_all
  rcases start_cases env self provider tr with
    ⟨h1, hs⟩ | ⟨h1, h2, hs⟩ | ⟨dev, h1, h2, h3, hs⟩ | ⟨dev, word, h1, h2, h3, h4, hs⟩ |
    ⟨dev, word, h1, h2, h3, h4, h5, hs⟩ | ⟨dev, word, pmu, rc, h1, h2, h3, h4, h5, h6, h7, hs⟩ |
    ⟨dev, word, pmu, h1, h2, h3, h4, h5, h6, hs⟩
  · rw [hs]; simp [h1]
  · rw [hs]
    simp only [Bool.false_eq_true, false_iff]
    rintro ⟨d, w, p, -, hp, -⟩
    rw [hp] at h2
    simp [castIOPCIDevice] at h2
  · rw [hs]
    simp only [Bool.false_eq_true, false_iff]
    rintro ⟨d, w, p, -, hp, hg, -⟩
    rw [h2] at hp
    cases hp
    rw [hg] at h3
    simp [castOSData] at h3
  · rw [hs]
    simp only [Bool.false_eq_true, false_iff]
    rintro ⟨d, w, p, -, hp, hg, hw, -⟩
    rw [h2] at hp
    cases hp
    rw [hg] at h3
    simp only [castOSData, Option.some.injEq] at h3
    subst h3
    exact hw h4
  · rw [hs]
    simp only [Bool.false_eq_true, false_iff]
    rintro ⟨d, w, p, -, -, -, -, hf, -⟩
    rw [h5] at hf
    cases hf
  · rw [hs]
    simp only [Bool.false_eq_true, false_iff]
    rintro ⟨d, w, p, -, -, -, -, hf, hr⟩
    rw [h5] at hf
    cases hf
    rw [h6] at hr
    exact h7 hr
  · rw [hs]
    simp only [true_iff]
    exact ⟨dev, word, pmu, h1, h2, (hdata _ _).mp h3, h4, h5, h6⟩

/-- A `start` that returns false leaves the Registration State as it found it. -/
theorem start_false_registrationState (env : Env) (self : Controller)
    (provider : Option IOService) (tr : List Event)
    (h : (start env self provider tr).1 = false) :
    registrationState self.thisPtr (start env self provider tr).2.2
      = registrationState self.thisPtr tr := by
  rcases start_cases env self provider tr with
    ⟨-, hs⟩ | ⟨-, -, hs⟩ | ⟨_, -, -, -, hs⟩ | ⟨_, _, -, -, -, -, hs⟩ |
    ⟨_, _, -, -, -, -, -, hs⟩ | ⟨_, _, _, rc, -, -, -, -, -, -, h7, hs⟩ |
    ⟨_, _, _, -, -, -, -, -, -, hs⟩
  · rw [hs, registrationState_append]; rfl
  · rw [hs, registrationState_append]; rfl
  · rw [hs, registrationState_append]; rfl
  · rw [hs, registrationState_append]; rfl
  · rw [hs, registrationState_append]; rfl
  · rw [hs, registrationState_append]
    simp only [kIOReturnSuccess] at h7
    simp [registrationStep, registration, h7]
  · rw [hs] at h
    exact absurd h (by simp)

/-- The calls of `registerForPMUInterrupts` in a trace that `start` has
extended: either those of the trace before, and then the service handle is
null or untouched, or one more. -/
theorem start_registration_calls (env : Env) (self : Controller)
    (provider : Option IOService) (tr : List Event) :
    (callsTo "registerForPMUInterrupts" (start env self provider tr).2.2
        = callsTo "registerForPMUInterrupts" tr ∧
      ((start env self provider tr).2.1.pmuDriver = none ∨
        (start env self provider tr).2.1.pmuDriver = self.pmuDriver)) ∨
    (∃ pmu rc, callsTo "registerForPMUInterrupts" (start env self provider tr).2.2
        = callsTo "registerForPMUInterrupts" tr ++ [registration pmu self.thisPtr rc] ∧
      (start env self provider tr).2.1.pmuDriver = some pmu) := by
  rcases start_cases env self provider tr with
    ⟨-, hs⟩ | ⟨-, -, hs⟩ | ⟨_, -, -, -, hs⟩ | ⟨_, _, -, -, -, -, hs⟩ |
    ⟨_, _, -, -, -, -, -, hs⟩ | ⟨_, _, pmu, rc, -, -, -, -, -, -, -, hs⟩ |
    ⟨_, _, pmu, -, -, -, -, -, -, hs⟩
  · left; rw [hs, callsTo_append]; simp [callsTo]
  · left; rw [hs, callsTo_append]; simp [callsTo]
  · left; rw [hs, callsTo_append]; simp [callsTo]
  · left; rw [hs, callsTo_append]; simp [callsTo]
  · left; rw [hs, callsTo_append]; simp [callsTo]
  · right; refine ⟨pmu, rc, ?_, ?_⟩
    · rw [hs, callsTo_append]; simp [callsTo, registration]
    · rw [hs]
  · right; refine ⟨pmu, kIOReturnSuccess, ?_, ?_⟩
    · rw [hs, callsTo_append]; simp [callsTo, registration]
    · rw [hs]

/-- Method `start` does not move the instance. -/
theorem start_thisPtr (env : Env) (self : Controller) (provider : Option IOService)
    (tr : List Event) : (start env self provider tr).2.1.thisPtr = self.thisPtr := by
  rcases start_cases env self provider tr with
    ⟨-, hs⟩ | ⟨-, -, hs⟩ | ⟨_, -, -, -, hs⟩ | ⟨_, _, -, -, -, -, hs⟩ |
    ⟨_, _, -, -, -, -, -, hs⟩ | ⟨_, _, _, _, -, -, -, -, -, -, -, hs⟩ |
    ⟨_, _, _, -, -, -, -, -, -, hs⟩
  all_goals rw [hs]

/-- On a new instance, `start` leaves a service handle exactly when it has
called `registerForPMUInterrupts`, accepted or not. -/
theorem start_fresh_handle (env : Env) (addr : Nat) (provider : Option IOService)
    (tr : List Event) :
    (callsTo "registerForPMUInterrupts" (start env (Controller.fresh addr) provider tr).2.2
        = callsTo "registerForPMUInterrupts" tr →
      (start env (Controller.fresh addr) provider tr).2.1.pmuDriver = none) ∧
    (callsTo "registerForPMUInterrupts" (start env (Controller.fresh addr) provider tr).2.2
        ≠ callsTo "registerForPMUInterrupts" tr →
      ∃ pmu, (start env (Controller.fresh addr) provider tr).2.1.pmuDriver = some pmu) := by
  rcases start_registration_calls env (Controller.fresh addr) provider tr with
    ⟨hc, hd⟩ | ⟨pmu, rc, hc, hd⟩
  · refine ⟨fun _ => ?_, fun hne => absurd hc hne⟩
    rcases hd with hd | hd
    · exact hd
    · rw [hd]; rfl
  · refine ⟨fun heq => ?_, fun _ => ⟨pmu, hd⟩⟩
    rw [hc] at heq
    simp at heq

/-- The trace `stop` leaves: a deregistration if there is a service handle,
then the base class's stop. -/
theorem stop_eq (env : Env) (self : Controller) (tr : List Event) :
    (self.pmuDriver = none ∧ stop env self tr = tr ++ [Event.superStop]) ∨
    (∃ pmu rc, self.pmuDriver = some pmu ∧
      stop env self tr = tr ++ [deregistration pmu self.thisPtr rc, Event.superStop]) := by
  unfold stop
  cases h : self.pmuDriver with
  | none => left; exact ⟨rfl, rfl⟩
  | some pmu =>
    right
    exact ⟨pmu, env.callPlatformFunction tr pmu "deRegisterClient" true
      (Param.object self.thisPtr) (Param.value kPMUpcmcia) Param.null Param.null, rfl,
      by simp [callPlatformFunction, deregistration]⟩

/-! ## Dispatch -/

/-- Claim C1. An interrupt record whose second byte differs from the socket of
the controller it is delivered to has no effect, whatever the interrupt class,
the length and the first byte: `requestCardEjection` is not called (whatever
its body is), the trace gets no event, and the controller is as before. -/
theorem handleInterrupt_foreign_socket (rce : RequestCardEjection) (ctl : Controller)
    (interruptMask length : Nat) (buf : Nat → Nat) (tr : List Event)
    (hsock : buf 1 ≠ ctl.pmuSocket) :
    (handleInterrupt rce (some (IOService.pmuEject ctl)) interruptMask length (some buf)
        tr).requests = 0 ∧
    (handleInterrupt rce (some (IOService.pmuEject ctl)) interruptMask length (some buf)
        tr).trace = tr ∧
    (handleInterrupt rce (some (IOService.pmuEject ctl)) interruptMask length (some buf)
        tr).client = some (IOService.pmuEject ctl) := by
  unfold handleInterrupt
  by_cases hm : interruptMask = kPMUpcmcia
  · by_cases hl : length < 2
    · simp [hm, hl, castApplePMUPCCardEject, Dispatch.discard]
    · simp [hm, hl, hsock, castApplePMUPCCardEject]
  · simp [hm, Dispatch.discard]

theorem handleInterrupt_foreign_socket_witness :
    record 0x01 5 1 ≠ ctl3.pmuSocket ∧
    (handleInterrupt markRequest (some (IOService.pmuEject ctl3)) 0x04 2
        (some (record 0x01 5)) []).requests = 0 ∧
    (handleInterrupt markRequest (some (IOService.pmuEject ctl3)) 0x04 2
        (some (record 0x01 5)) []).trace = [] ∧
    (handleInterrupt markRequest (some (IOService.pmuEject ctl3)) 0x04 2
        (some (record 0x01 5)) []).client = some (IOService.pmuEject ctl3) :=
  ⟨by decide,
    handleInterrupt_foreign_socket markRequest ctl3 0x04 2 (record 0x01 5) [] (by decide)⟩

/-- Claim C2. An interrupt record of declared length 0 or 1 is discarded: for
every context, class and buffer (also one whose second byte is the socket and
whose first byte is a button request) no byte of the buffer is read,
`requestCardEjection` is not called, and trace and controller are as before. -/
theorem handleInterrupt_short_record (rce : RequestCardEjection) (client : Option IOService)
    (interruptMask length : Nat) (buffer : Option (Nat → Nat)) (tr : List Event)
    (hlen : length < 2) :
    handleInterrupt rce client interruptMask length buffer tr
      = { client := client, trace := tr, loads := [], requests := 0 } := by
  unfold handleInterrupt
  by_cases hm : interruptMask = kPMUpcmcia
  · cases hc : castApplePMUPCCardEject client with
    | none => simp [hm, Dispatch.discard]
    | some myThis =>
      cases buffer with
      | none => simp [hm, Dispatch.discard]
      | some buf => simp [hm, hlen, Dispatch.discard]
  · simp [hm, Dispatch.discard]

theorem handleInterrupt_short_record_witness :
    1 < 2 ∧
    handleInterrupt markRequest (some (IOService.pmuEject ctl3)) 0x04 1
        (some (record 0x01 3)) []
      = { client := some (IOService.pmuEject ctl3), trace := [], loads := [], requests := 0 } :=
  ⟨by decide,
    handleInterrupt_short_record markRequest (some (IOService.pmuEject ctl3)) 0x04 1
      (some (record 0x01 3)) [] (by decide)⟩

/-- Claim C9. A timeout record (first byte 0x02) of the eject class, of length
at least 2 and for the socket of the controller it is delivered to, leads to no
call and no change: `requestCardEjection` is not called (whatever its body is),
the trace gets no event and the controller is as before. -/
theorem handleInterrupt_timeout (rce : RequestCardEjection) (ctl : Controller) (length : Nat)
    (buf : Nat → Nat) (tr : List Event) (hlen : 2 ≤ length) (hsock : buf 1 = ctl.pmuSocket)
    (hflags : buf 0 = 0x02) :
    handleInterrupt rce (some (IOService.pmuEject ctl)) 0x04 length (some buf) tr
      = { client := some (IOService.pmuEject ctl), trace := tr, loads := [1, 0],
          requests := 0 } := by
  have h := handleInterrupt_passed rce ctl length buf tr hlen
  simp only [kPMUpcmcia] at h
  rw [h]
  simp [hsock, hflags]

theorem handleInterrupt_timeout_witness :
    2 ≤ 2 ∧ record 0x02 3 1 = ctl3.pmuSocket ∧ record 0x02 3 0 = 0x02 ∧
    handleInterrupt markRequest (some (IOService.pmuEject ctl3)) 0x04 2
        (some (record 0x02 3)) []
      = { client := some (IOService.pmuEject ctl3), trace := [], loads := [1, 0],
          requests := 0 } :=
  ⟨by decide, by decide, by decide,
    handleInterrupt_timeout markRequest ctl3 2 (record 0x02 3) [] (by decide) (by decide)
      (by decide)⟩

/-- Claim C10. The exact behaviour of dispatch.  When the conditions of
`ejectionTarget` hold, `handleInterrupt` calls `requestCardEjection` on that
controller once, on the trace as it is, and drops the result code; when they
do not, it calls nothing and changes nothing.  The first byte counts only
through its two low bits: two buffers that agree on the second byte and on
the first byte modulo 4 are handled alike, 0x81 requests an ejection as 0x01
does, and 0x03 requests none. -/
theorem handleInterrupt_characterisation (rce : RequestCardEjection)
    (client : Option IOService) (interruptMask length : Nat) (tr : List Event) :
    (∀ buffer ctl, ejectionTarget client interruptMask length buffer = some ctl →
      handleInterrupt rce client interruptMask length buffer tr
        = { client := some (IOService.pmuEject (rce ctl tr).2.1), trace := (rce ctl tr).2.2,
            loads := [1, 0], requests := 1 }) ∧
    (∀ buffer, ejectionTarget client interruptMask length buffer = none →
      (handleInterrupt rce client interruptMask length buffer tr).requests = 0 ∧
      (handleInterrupt rce client interruptMask length buffer tr).trace = tr ∧
      (handleInterrupt rce client interruptMask length buffer tr).client = client) ∧
    (∀ buffer, (handleInterrupt rce client interruptMask length buffer tr).requests = 1 ↔
      ∃ ctl buf, client = some (IOService.pmuEject ctl) ∧ buffer = some buf ∧
        interruptMask = 0x04 ∧ 2 ≤ length ∧ buf 1 = ctl.pmuSocket ∧ buf 0 &&& 0x03 = 0x01) ∧
    (∀ buf buf2 : Nat → Nat, buf2 1 = buf 1 → buf2 0 % 4 = buf 0 % 4 →
      handleInterrupt rce client interruptMask length (some buf2) tr
        = handleInterrupt rce client interruptMask length (some buf) tr) ∧
    (∀ buf : Nat → Nat, buf 0 = 0x81 →
      handleInterrupt rce client interruptMask length (some buf) tr
        = handleInterrupt rce client interruptMask length
            (some fun i => if i = 0 then 0x01 else buf i) tr) ∧
    (∀ buf : Nat → Nat, buf 0 = 0x03 →
      (handleInterrupt rce client interruptMask length (some buf) tr).requests = 0) := by
  -- the first two parts, for one buffer
  have key : ∀ buffer,
      (∀ ctl, ejectionTarget client interruptMask length buffer = some ctl →
        handleInterrupt rce client interruptMask length buffer tr
          = { client := some (IOService.pmuEject (rce ctl tr).2.1), trace := (rce ctl tr).2.2,
              loads := [1, 0], requests := 1 }) ∧
      (ejectionTarget client interruptMask length buffer = none →
        (handleInterrupt rce client interruptMask length buffer tr).requests = 0 ∧
        (handleInterrupt rce client interruptMask length buffer tr).trace = tr ∧
        (handleInterrupt rce client interruptMask length buffer tr).client = client) := by
    intro buffer
    by_cases hrej : interruptMask ≠ kPMUpcmcia ∨ castApplePMUPCCardEject client = none
        ∨ buffer = none ∨ length < 2
    · have hd := handleInterrupt_rejected rce client interruptMask length buffer tr hrej
      have hnone : ejectionTarget client interruptMask length buffer = none := by
        unfold ejectionTarget
        split
        · rename_i ctl buf
          have : ¬ (interruptMask = 4 ∧ 2 ≤ length) := by
            rintro ⟨hm, hl⟩
            rcases hrej with h | h | h | h
            · exact h hm
            · simp [castApplePMUPCCardEject] at h
            · simp at h
            · omega
          rw [if_neg]
          tauto
        · rfl
      constructor
      · intro ctl h
        rw [hnone] at h
        cases h
      · intro _
        rw [hd]
        simp [Dispatch.discard]
    · push_neg at hrej
      obtain ⟨hm, hc, hb, hl⟩ := hrej
      obtain ⟨ctl, rfl⟩ : ∃ ctl, client = some (IOService.pmuEject ctl) := by
        unfold castApplePMUPCCardEject at hc
        split at hc
        · exact ⟨_, rfl⟩
        · exact absurd rfl hc
      obtain ⟨buf, rfl⟩ := Option.ne_none_iff_exists'.mp hb
      have hl2 : 2 ≤ length := by omega
      subst hm
      have hd := handleInterrupt_passed rce ctl length buf tr hl2
      rw [hd]
      simp only [ejectionTarget, and_three_eq_mod]
      by_cases hs : buf 1 = ctl.pmuSocket
      · by_cases hf : buf 0 % 4 = 1
        · simp [hs, hf, hl2]
        · simp [hs, hf, hl2]
      · simp [hs, hl2]
  have mod4 : ∀ buf buf2 : Nat → Nat, buf2 1 = buf 1 → buf2 0 % 4 = buf 0 % 4 →
      handleInterrupt rce client interruptMask length (some buf2) tr
        = handleInterrupt rce client interruptMask length (some buf) tr := by
    intro buf buf2 h1 h0
    by_cases hrej : interruptMask ≠ kPMUpcmcia ∨ castApplePMUPCCardEject client = none
        ∨ length < 2
    · rw [handleInterrupt_rejected rce client interruptMask length (some buf2) tr (by tauto),
        handleInterrupt_rejected rce client interruptMask length (some buf) tr (by tauto)]
    · push_neg at hrej
      obtain ⟨hm, hc, hl⟩ := hrej
      obtain ⟨ctl, rfl⟩ : ∃ ctl, client = some (IOService.pmuEject ctl) := by
        unfold castApplePMUPCCardEject at hc
        split at hc
        · exact ⟨_, rfl⟩
        · exact absurd rfl hc
      subst hm
      rw [handleInterrupt_passed rce ctl length buf2 tr hl,
        handleInterrupt_passed rce ctl length buf tr hl, h1, h0]
  refine ⟨fun buffer => (key buffer).1, fun buffer => (key buffer).2, ?_, mod4, ?_, ?_⟩
  · intro buffer
    constructor
    · intro hreq
      cases ht : ejectionTarget client interruptMask length buffer with
      | none =>
        have := ((key buffer).2 ht).1
        omega
      | some ctl =>
        unfold ejectionTarget at ht
        split at ht
        · rename_i c buf
          split at ht
          · rename_i hcond
            exact ⟨c, buf, rfl, rfl, hcond⟩
          · cases ht
        · cases ht
    · rintro ⟨ctl, buf, rfl, rfl, hcond⟩
      have ht : ejectionTarget (some (IOService.pmuEject ctl)) interruptMask length (some buf)
          = some ctl := by
        simp only [ejectionTarget]
        rw [if_pos hcond]
      rw [(key (some buf)).1 ctl ht]
  · intro buf h81
    apply mod4
    · simp
    · simp [h81]
  · intro buf h03
    apply ((key (some buf)).2 _).1
    unfold ejectionTarget
    split
    · rename_i b heq
      cases heq
      rw [if_neg]
      simp [h03]
    · rfl

theorem handleInterrupt_characterisation_witness :
    ejectionTarget (some (IOService.pmuEject ctl3)) 0x04 2 (some (record 0x81 3)) = some ctl3 ∧
    handleInterrupt markRequest (some (IOService.pmuEject ctl3)) 0x04 2
        (some (record 0x81 3)) []
      = { client := some (IOService.pmuEject (markRequest ctl3 []).2.1),
          trace := (markRequest ctl3 []).2.2, loads := [1, 0], requests := 1 } ∧
    record 0x03 3 0 = 0x03 ∧
    (handleInterrupt markRequest (some (IOService.pmuEject ctl3)) 0x04 2
        (some (record 0x03 3)) []).requests = 0 :=
  ⟨by decide,
    (handleInterrupt_characterisation markRequest (some (IOService.pmuEject ctl3)) 0x04 2
      []).1 (some (record 0x81 3)) ctl3 (by decide),
    by decide,
    (handleInterrupt_characterisation markRequest (some (IOService.pmuEject ctl3)) 0x04 2
      []).2.2.2.2.2 (record 0x03 3) (by decide)⟩

/-- Claim C5. Let a controller be registered, that is, be the instance a
`start` that returned true has left, and let `requestCardEjection` be as the
specification describes it.  An interrupt of the eject class (0x04) with length
2, first byte 0x01 and second byte the controller's socket `s` makes
`handleInterrupt` call `requestCardEjection` once, and the trace grows by one
event: the eject command (opcode 0x4C, one byte to send, the byte `s`) to the
controller's service, whatever the service answers. -/
theorem handleInterrupt_button_request (env0 env : Env) (self0 self : Controller)
    (provider : Option IOService) (tr0 tr1 tr : List Event) (buf : Nat → Nat)
    (hreg : start env0 self0 provider tr0 = (true, self, tr1))
    (hflags : buf 0 = 0x01) (hsock : buf 1 = self.pmuSocket) :
    ∃ pmu rc, self.pmuDriver = some pmu ∧
      handleInterrupt (requestCardEjection env) (some (IOService.pmuEject self)) 0x04 2
          (some buf) tr
        = { client := some (IOService.pmuEject self),
            trace := tr ++ [ejectCommand pmu self.pmuSocket rc],
            loads := [1, 0], requests := 1 } := by
  obtain ⟨pmu, hdrv, -, -, -⟩ := start_true env0 self0 provider tr0 (by rw [hreg])
  rw [hreg] at hdrv
  obtain ⟨rc, hrc⟩ := localSendMiscCommand_eject env self tr pmu hdrv
  refine ⟨pmu, rc, hdrv, ?_⟩
  have h := handleInterrupt_passed (requestCardEjection env) self 2 buf tr (le_refl 2)
  simp only [kPMUpcmcia] at h
  rw [h]
  simp only [requestCardEjection, kPMUDoPCMCIAEject]
  rw [hrc]
  simp [hflags, hsock]

theorem handleInterrupt_button_request_witness :
    start envAccept (Controller.fresh 9) (some (IOService.pciDevice bridge3)) []
      = (true, ctl3,
         [Event.superStart true, Event.waitForService "ApplePMU" (some 7),
           registration 7 9 kIOReturnSuccess]) ∧
    record 0x01 3 0 = 0x01 ∧ record 0x01 3 1 = ctl3.pmuSocket ∧
    ∃ pmu rc, ctl3.pmuDriver = some pmu ∧
      handleInterrupt (requestCardEjection envAccept) (some (IOService.pmuEject ctl3)) 0x04 2
          (some (record 0x01 3)) []
        = { client := some (IOService.pmuEject ctl3),
            trace := [] ++ [ejectCommand pmu ctl3.pmuSocket rc],
            loads := [1, 0], requests := 1 } :=
  ⟨by decide, by decide, by decide,
    handleInterrupt_button_request envAccept envAccept (Controller.fresh 9) ctl3
      (some (IOService.pciDevice bridge3)) []
      [Event.superStart true, Event.waitForService "ApplePMU" (some 7),
        registration 7 9 kIOReturnSuccess]
      [] (record 0x01 3) (by decide) (by decide) (by decide)⟩

/-! ## Command transmission -/

/-- Claim C3. When the transmission of the eject command does not return
success, `ejectCard` returns what the transmission returned and leaves the
trace the transmission left, in which the base class's `ejectCard` has been
called no more often than before.  That covers both causes: without a service
handle the result is `kIOReturnError` and nothing is sent; with a handle the
result is the code with which the service answered the one command sent. -/
theorem ejectCard_transmission_failure (env : Env) (self : Controller) (tr : List Event)
    (hfail : (localSendMiscCommand env self 0x4C 1 (some [self.pmuSocket]) tr).1
      ≠ kIOReturnSuccess) :
    ejectCard env self tr = localSendMiscCommand env self 0x4C 1 (some [self.pmuSocket]) tr ∧
    superEjectCardCalls (ejectCard env self tr).2 = superEjectCardCalls tr ∧
    (self.pmuDriver = none → ejectCard env self tr = (kIOReturnError, tr)) ∧
    (∀ pmu, self.pmuDriver = some pmu →
      ∃ rc, rc ≠ kIOReturnSuccess ∧
        ejectCard env self tr = (rc, tr ++ [ejectCommand pmu self.pmuSocket rc])) := by
  have heq : ejectCard env self tr
      = localSendMiscCommand env self 0x4C 1 (some [self.pmuSocket]) tr := by
    unfold ejectCard
    simp only [kPMUDoPCMCIAEject]
    rw [if_pos hfail]
  refine ⟨heq, ?_, ?_, ?_⟩
  · rw [heq]
    unfold localSendMiscCommand
    cases self.pmuDriver with
    | none => rfl
    | some pmu => simp [callPlatformFunction, superEjectCardCalls, List.filter_append]
  · intro hnone
    rw [heq]
    unfold localSendMiscCommand
    rw [hnone]
  · intro pmu hsome
    rw [heq]
    unfold localSendMiscCommand at hfail ⊢
    rw [hsome] at hfail ⊢
    exact ⟨_, hfail, rfl⟩

theorem ejectCard_transmission_failure_witness :
    (localSendMiscCommand envRejectCommand ctl3 0x4C 1 (some [ctl3.pmuSocket]) []).1
      ≠ kIOReturnSuccess ∧
    (ejectCard envRejectCommand ctl3 []
        = localSendMiscCommand envRejectCommand ctl3 0x4C 1 (some [ctl3.pmuSocket]) [] ∧
      superEjectCardCalls (ejectCard envRejectCommand ctl3 []).2 = superEjectCardCalls [] ∧
      (ctl3.pmuDriver = none → ejectCard envRejectCommand ctl3 [] = (kIOReturnError, [])) ∧
      (∀ pmu, ctl3.pmuDriver = some pmu →
        ∃ rc, rc ≠ kIOReturnSuccess ∧
          ejectCard envRejectCommand ctl3 [] = (rc, [] ++ [ejectCommand pmu ctl3.pmuSocket rc]))) :=
  ⟨by decide, ejectCard_transmission_failure envRejectCommand ctl3 [] (by decide)⟩

/-- Claim C4. With a service handle `pmu` and a service that accepts the
command, `ejectCard` adds two events to the trace and no more: first the eject
command to `pmu` (opcode 0x4C, send length 1, the socket as the one byte to
send, null response length and buffer), then the call of the base class's
`ejectCard`, whose result it returns. -/
theorem ejectCard_transmission_success (env : Env) (self : Controller) (tr : List Event)
    (pmu : Nat) (hdrv : self.pmuDriver = some pmu)
    (hacc : env.callPlatformFunction tr pmu "sendMiscCommand" true
      (Param.block
        { command := 0x4C, sLength := 1, sBuffer := some [self.pmuSocket], rLength := none,
          rBuffer := none })
      Param.null Param.null Param.null = kIOReturnSuccess) :
    ejectCard env self tr
      = (env.superEjectCard (tr ++ [ejectCommand pmu self.pmuSocket kIOReturnSuccess]),
         tr ++ [ejectCommand pmu self.pmuSocket kIOReturnSuccess,
           Event.superEjectCard
             (env.superEjectCard (tr ++ [ejectCommand pmu self.pmuSocket kIOReturnSuccess]))]) := by
  unfold ejectCard localSendMiscCommand
  simp only [hdrv, callPlatformFunction, kPMUDoPCMCIAEject]
  rw [hacc]
  simp [ejectCommand]

theorem ejectCard_transmission_success_witness :
    ctl3.pmuDriver = some 7 ∧
    envAccept.callPlatformFunction [] 7 "sendMiscCommand" true
      (Param.block
        { command := 0x4C, sLength := 1, sBuffer := some [ctl3.pmuSocket], rLength := none,
          rBuffer := none })
      Param.null Param.null Param.null = kIOReturnSuccess ∧
    ejectCard envAccept ctl3 []
      = (envAccept.superEjectCard ([] ++ [ejectCommand 7 ctl3.pmuSocket kIOReturnSuccess]),
         [] ++ [ejectCommand 7 ctl3.pmuSocket kIOReturnSuccess,
           Event.superEjectCard
             (envAccept.superEjectCard
               ([] ++ [ejectCommand 7 ctl3.pmuSocket kIOReturnSuccess]))]) :=
  ⟨rfl, rfl, ejectCard_transmission_success envAccept ctl3 [] 7 rfl rfl⟩

/-! ## Provisioning and teardown -/

/-- Claim C8. `start` returns true exactly when all six steps succeed: the base
class starts, the provider is a PCI device, it has the socket property as data,
the socket byte is not zero, the service is found, and the service accepts the
registration.  Then the trace has grown by the base start, the wait and one
registration (class 0x04, callback `handleInterrupt`, context this instance),
and the Registration State is `Registered`.  When `start` returns false the
Registration State is what it was before; when one of the first five steps
fails, `start` returns false and `registerForPMUInterrupts` has not been
called; when the service refuses the registration, `start` returns false. -/
theorem start_provisioning (env : Env) (self : Controller) (provider : Option IOService)
    (tr : List Event) :
    ((start env self provider tr).1 = true ↔
      ∃ dev word pmu, env.superStart tr provider = true ∧
        provider = some (IOService.pciDevice dev) ∧
        dev.getProperty "AAPL,pmu-socket-number" = some (OSObject.data word) ∧
        word % 256 ≠ 0 ∧
        env.waitForService (tr ++ [Event.superStart true]) "ApplePMU" = some pmu ∧
        env.callPlatformFunction
          (tr ++ [Event.superStart true, Event.waitForService "ApplePMU" (some pmu)])
          pmu "registerForPMUInterrupts" true (Param.value 0x04)
          (Param.function Callback.handleInterrupt) (Param.object self.thisPtr) Param.null
          = kIOReturnSuccess) ∧
    ((start env self provider tr).1 = true →
      ∃ pmu,
        (start env self provider tr).2.2
          = tr ++ [Event.superStart true, Event.waitForService "ApplePMU" (some pmu),
              registration pmu self.thisPtr kIOReturnSuccess] ∧
        callsTo "registerForPMUInterrupts" (start env self provider tr).2.2
          = callsTo "registerForPMUInterrupts" tr
              ++ [registration pmu self.thisPtr kIOReturnSuccess] ∧
        registrationState self.thisPtr (start env self provider tr).2.2
          = RegistrationState.Registered) ∧
    ((start env self provider tr).1 = false →
      registrationState self.thisPtr (start env self provider tr).2.2
        = registrationState self.thisPtr tr) ∧
    ((env.superStart tr provider = false ∨ castIOPCIDevice provider = none ∨
        (∃ dev, provider = some (IOService.pciDevice dev) ∧
          castOSData (dev.getProperty "AAPL,pmu-socket-number") = none) ∨
        (∃ dev word, provider = some (IOService.pciDevice dev) ∧
          dev.getProperty "AAPL,pmu-socket-number" = some (OSObject.data word) ∧
          word % 256 = 0) ∨
        env.waitForService (tr ++ [Event.superStart true]) "ApplePMU" = none) →
      (start env self provider tr).1 = false ∧
      callsTo "registerForPMUInterrupts" (start env self provider tr).2.2
        = callsTo "registerForPMUInterrupts" tr) ∧
    (∀ pmu, env.waitForService (tr ++ [Event.superStart true]) "ApplePMU" = some pmu →
      env.callPlatformFunction
          (tr ++ [Event.superStart true, Event.waitForService "ApplePMU" (some pmu)])
          pmu "registerForPMUInterrupts" true (Param.value 0x04)
          (Param.function Callback.handleInterrupt) (Param.object self.thisPtr) Param.null
        ≠ kIOReturnSuccess →
      (start env self provider tr).1 = false) := by
  have hiff := start_true_iff env self provider tr
  refine ⟨hiff, ?_, start_false_registrationState env self provider tr, ?_, ?_⟩
  · intro htrue
    obtain ⟨pmu, -, -, -, htr⟩ := start_true env self provider tr htrue
    refine ⟨pmu, htr, ?_, ?_⟩
    · rw [htr, callsTo_append]
      simp [callsTo, registration]
    · rw [htr, registrationState_append]
      simp [registrationStep, registration]
  · intro hfail
    have contra : ∀ dev word pmu, env.superStart tr provider = true →
        provider = some (IOService.pciDevice dev) →
        castOSData (dev.getProperty "AAPL,pmu-socket-number") = some word →
        word % 256 ≠ 0 →
        env.waitForService (tr ++ [Event.superStart true]) "ApplePMU" = some pmu → False := by
      intro dev word pmu h1 h2 h3 h4 h5
      rcases hfail with h | h | ⟨d, hp, h⟩ | ⟨d, w, hp, hg, h⟩ | h
      · rw [h1] at h; cases h
      · rw [h2] at h; simp [castIOPCIDevice] at h
      · rw [h2] at hp; cases hp
        rw [h3] at h; cases h
      · rw [h2] at hp; cases hp
        rw [hg] at h3
        simp only [castOSData, Option.some.injEq] at h3
        subst h3
        exact h4 h
      · rw [h5] at h; cases h
    rcases start_cases env self provider tr with
      ⟨-, hs⟩ | ⟨-, -, hs⟩ | ⟨_, -, -, -, hs⟩ | ⟨_, _, -, -, -, -, hs⟩ |
      ⟨_, _, -, -, -, -, -, hs⟩ | ⟨dev, word, pmu, _, h1, h2, h3, h4, h5, -, -, -⟩ |
      ⟨dev, word, pmu, h1, h2, h3, h4, h5, -, -⟩
    · rw [hs, callsTo_append]; simp [callsTo]
    · rw [hs, callsTo_append]; simp [callsTo]
    · rw [hs, callsTo_append]; simp [callsTo]
    · rw [hs, callsTo_append]; simp [callsTo]
    · rw [hs, callsTo_append]; simp [callsTo]
    · exact (contra dev word pmu h1 h2 h3 h4 h5).elim
    · exact (contra dev word pmu h1 h2 h3 h4 h5).elim
  · intro pmu hfound hrej
    cases hb : (start env self provider tr).1 with
    | false => rfl
    | true =>
      exfalso
      obtain ⟨dev, word, p, -, -, -, -, h5, h6⟩ := hiff.mp hb
      rw [hfound] at h5
      cases h5
      exact hrej h6

theorem start_provisioning_witness :
    ((start envNoService (Controller.fresh 9) (some (IOService.pciDevice bridge3)) []).1 = false ∧
      callsTo "registerForPMUInterrupts"
          (start envNoService (Controller.fresh 9) (some (IOService.pciDevice bridge3)) []).2.2
        = callsTo "registerForPMUInterrupts" []) ∧
    (start envRejectRegistration (Controller.fresh 9) (some (IOService.pciDevice bridge3))
      []).1 = false :=
  ⟨(start_provisioning envNoService (Controller.fresh 9) (some (IOService.pciDevice bridge3))
      []).2.2.2.1 (Or.inr (Or.inr (Or.inr (Or.inr rfl)))),
    (start_provisioning envRejectRegistration (Controller.fresh 9)
      (some (IOService.pciDevice bridge3)) []).2.2.2.2 7 rfl (by decide)⟩

/-- Claim C6, as the code has it.  `stop` tests the service handle, not a
Registration State, and does not clear it.  Without a handle it only calls the
base class's stop; with a handle `pmu` it first sends one `deRegisterClient`
(context this instance, class 0x04) to `pmu`.  A second `stop` does the same
again: after two calls the trace has two deregistrations if there is a handle
and none if there is not.  On a new instance the handle is there exactly when
`start` has called `registerForPMUInterrupts`: after a `start` without that
call `stop` sends no deregistration, after a `start` with it, accepted or
refused, `stop` sends one. -/
theorem stop_deregisters_by_handle (env : Env) (self : Controller) (tr : List Event) :
    (self.pmuDriver = none →
      stop env self tr = tr ++ [Event.superStop] ∧
      stop env self (stop env self tr) = tr ++ [Event.superStop, Event.superStop]) ∧
    (∀ pmu, self.pmuDriver = some pmu →
      (∃ rc, stop env self tr = tr ++ [deregistration pmu self.thisPtr rc, Event.superStop]) ∧
      ∃ rc1 rc2, stop env self (stop env self tr)
        = tr ++ [deregistration pmu self.thisPtr rc1, Event.superStop,
            deregistration pmu self.thisPtr rc2, Event.superStop]) ∧
    (∀ env0 addr provider tr0,
      callsTo "registerForPMUInterrupts" (start env0 (Controller.fresh addr) provider tr0).2.2
          = callsTo "registerForPMUInterrupts" tr0 →
        stop env (start env0 (Controller.fresh addr) provider tr0).2.1 tr
          = tr ++ [Event.superStop]) ∧
    (∀ env0 addr provider tr0,
      callsTo "registerForPMUInterrupts" (start env0 (Controller.fresh addr) provider tr0).2.2
          ≠ callsTo "registerForPMUInterrupts" tr0 →
        ∃ pmu rc, stop env (start env0 (Controller.fresh addr) provider tr0).2.1 tr
          = tr ++ [deregistration pmu addr rc, Event.superStop]) := by
  refine ⟨?_, ?_, ?_, ?_⟩
  · intro hnone
    have h1 : ∀ t, stop env self t = t ++ [Event.superStop] := by
      intro t
      rcases stop_eq env self t with ⟨-, h⟩ | ⟨pmu, rc, hd, -⟩
      · exact h
      · rw [hnone] at hd; cases hd
    refine ⟨h1 tr, ?_⟩
    rw [h1 tr, h1]
    simp
  · intro pmu hsome
    have h1 : ∀ t, ∃ rc, stop env self t
        = t ++ [deregistration pmu self.thisPtr rc, Event.superStop] := by
      intro t
      rcases stop_eq env self t with ⟨hd, -⟩ | ⟨p, rc, hd, h⟩
      · rw [hsome] at hd; cases hd
      · rw [hsome] at hd; cases hd
        exact ⟨rc, h⟩
    refine ⟨h1 tr, ?_⟩
    obtain ⟨rc1, e1⟩ := h1 tr
    obtain ⟨rc2, e2⟩ := h1 (stop env self tr)
    refine ⟨rc1, rc2, ?_⟩
    rw [e2, e1]
    simp
  · intro env0 addr provider tr0 hcalls
    have hnone := (start_fresh_handle env0 addr provider tr0).1 hcalls
    rcases stop_eq env (start env0 (Controller.fresh addr) provider tr0).2.1 tr with
      ⟨-, h⟩ | ⟨pmu, rc, hd, -⟩
    · exact h
    · rw [hnone] at hd; cases hd
  · intro env0 addr provider tr0 hcalls
    obtain ⟨pmu, hsome⟩ := (start_fresh_handle env0 addr provider tr0).2 hcalls
    rcases stop_eq env (start env0 (Controller.fresh addr) provider tr0).2.1 tr with
      ⟨hd, -⟩ | ⟨p, rc, -, h⟩
    · rw [hsome] at hd; cases hd
    · refine ⟨p, rc, ?_⟩
      rw [h, start_thisPtr]
      rfl

theorem stop_deregisters_by_handle_witness :
    (∃ rc, stop envAccept ctl3 [] = [] ++ [deregistration 7 ctl3.thisPtr rc, Event.superStop]) ∧
    ∃ rc1 rc2, stop envAccept ctl3 (stop envAccept ctl3 [])
      = [] ++ [deregistration 7 ctl3.thisPtr rc1, Event.superStop,
          deregistration 7 ctl3.thisPtr rc2, Event.superStop] :=
  (stop_deregisters_by_handle envAccept ctl3 []).2.1 7 rfl

/-- Claim C6 does not hold as stated.  After a `start` that succeeded, a first
`stop` sends one `deRegisterClient` and a second `stop` in succession sends
another one.  After a `start` that failed because the service refused the
registration, with the Registration State `Unregistered`, `stop` sends a
`deRegisterClient` all the same. -/
theorem stop_twice_counterexample :
    startedAccepted.1 = true ∧
    (callsTo "deRegisterClient"
      (stop envAccept startedAccepted.2.1 startedAccepted.2.2)).length = 1 ∧
    (callsTo "deRegisterClient"
      (stop envAccept startedAccepted.2.1
        (stop envAccept startedAccepted.2.1 startedAccepted.2.2))).length = 2 ∧
    startedRejected.1 = false ∧
    registrationState 9 startedRejected.2.2 = RegistrationState.Unregistered ∧
    callsTo "deRegisterClient"
        (stop envRejectRegistration startedRejected.2.1 startedRejected.2.2)
      = [deregistration 7 9 kIOReturnSuccess] := by
  decide

/-- Claim C7, as the code has it.  What command issuance tests is the service
handle, not a Registration State.  Without a handle `localSendMiscCommand`, and
with it `ejectCard`, returns `kIOReturnError`, which is not the success code,
and the trace is as before: nothing is sent.  That is the state of a new
instance on which `start` has not got as far as calling
`registerForPMUInterrupts`.  With a handle `pmu`, `localSendMiscCommand` sends
one `sendMiscCommand` to `pmu` and returns the service's answer. -/
theorem command_fails_without_handle (env : Env) (self : Controller) (tr : List Event) :
    (self.pmuDriver = none →
      (∀ command sLength sBuffer,
        localSendMiscCommand env self command sLength sBuffer tr = (kIOReturnError, tr)) ∧
      ejectCard env self tr = (kIOReturnError, tr) ∧
      kIOReturnError ≠ kIOReturnSuccess) ∧
    (∀ env0 addr provider tr0,
      callsTo "registerForPMUInterrupts" (start env0 (Controller.fresh addr) provider tr0).2.2
          = callsTo "registerForPMUInterrupts" tr0 →
        ejectCard env (start env0 (Controller.fresh addr) provider tr0).2.1 tr
          = (kIOReturnError, tr)) ∧
    (∀ pmu, self.pmuDriver = some pmu →
      ∀ command sLength sBuffer, ∃ rc,
        localSendMiscCommand env self command sLength sBuffer tr
          = (rc, tr ++ [Event.callPlatformFunction pmu "sendMiscCommand" true
                (Param.block
                  { command := command, sLength := sLength, sBuffer := sBuffer,
                    rLength := none, rBuffer := none })
                Param.null Param.null Param.null rc])) := by
  have hnone : ∀ c : Controller, c.pmuDriver = none →
      (∀ command sLength sBuffer,
        localSendMiscCommand env c command sLength sBuffer tr = (kIOReturnError, tr)) ∧
      ejectCard env c tr = (kIOReturnError, tr) := by
    intro c hc
    have hl : ∀ command sLength sBuffer,
        localSendMiscCommand env c command sLength sBuffer tr = (kIOReturnError, tr) := by
      intro command sLength sBuffer
      unfold localSendMiscCommand
      rw [hc]
    refine ⟨hl, ?_⟩
    unfold ejectCard
    simp [hl]
  refine ⟨fun h => ⟨(hnone self h).1, (hnone self h).2, by decide⟩, ?_, ?_⟩
  · intro env0 addr provider tr0 hcalls
    exact (hnone _ ((start_fresh_handle env0 addr provider tr0).1 hcalls)).2
  · intro pmu hsome command sLength sBuffer
    unfold localSendMiscCommand
    rw [hsome]
    exact ⟨_, rfl⟩

theorem command_fails_without_handle_witness :
    (∀ command sLength sBuffer,
      localSendMiscCommand envAccept (Controller.fresh 9) command sLength sBuffer []
        = (kIOReturnError, [])) ∧
    ejectCard envAccept (Controller.fresh 9) [] = (kIOReturnError, []) ∧
    kIOReturnError ≠ kIOReturnSuccess :=
  (command_fails_without_handle envAccept (Controller.fresh 9) []).1 rfl

/-- Claim C7 does not hold as stated.  After a `start` that failed because the
service refused the registration, with the Registration State `Unregistered`,
`ejectCard` sends the eject command and returns success.  After a `start` that
succeeded and a `stop`, with the Registration State `Unregistered` again,
`ejectCard` sends the eject command and returns success as well. -/
theorem ejectCard_unregistered_counterexample :
    startedRejected.1 = false ∧
    registrationState 9 startedRejected.2.2 = RegistrationState.Unregistered ∧
    ejectCard envRejectRegistration startedRejected.2.1 startedRejected.2.2
      = (kIOReturnSuccess,
         startedRejected.2.2
           ++ [ejectCommand 7 3 kIOReturnSuccess, Event.superEjectCard kIOReturnSuccess]) ∧
    startedAccepted.1 = true ∧
    registrationState 9 (stop envAccept startedAccepted.2.1 startedAccepted.2.2)
      = RegistrationState.Unregistered ∧
    ejectCard envAccept startedAccepted.2.1
        (stop envAccept startedAccepted.2.1 startedAccepted.2.2)
      = (kIOReturnSuccess,
         stop envAccept startedAccepted.2.1 startedAccepted.2.2
           ++ [ejectCommand 7 3 kIOReturnSuccess, Event.superEjectCard kIOReturnSuccess]) := by
  decide

end ApplePMUPCCardEject
